import Mathlib

/-!
Verification of the markdown → boardgamegeek-markup converter (`md_to_bgg.py`).

The development shallowly embeds the converter:

* a small backtracking regular-expression engine covering exactly the
  constructs used by the seven inline patterns of the source (literal runs,
  single-character classes, greedy optional, greedy/lazy star and plus over a
  character class, named capture groups), with Python `re` backtracking order
  (greedy quantifiers prefer the longest repetition, lazy ones the shortest,
  an optional group first tries its body);
* the seven inline patterns of the source, translated character by character;
* Python's `str.format` (restricted to a single positional argument), because
  `BGG_wrap` interpolates its tag code and contents into a template with an
  f-string and only then calls `.format`, so braces inside the contents are
  interpreted as replacement fields;
* the rendering functions of `BGGRenderer`, and — modelled from the spec,
  since the external markdown engine is not part of the repository — the
  priority-ordered inline scanner and the renderer's line-prefix state.
-/

namespace MdToBgg

/-- The left brace character (written via its code point so that no brace
appears in a string literal). -/
def lbrace : Char := Char.ofNat 123

/-- The right brace character. -/
def rbrace : Char := Char.ofNat 125

/-- The backtick character. -/
def btick : Char := Char.ofNat 96

/-- Captured groups of a regex match: association list from group name to the
captured character run.  A group that did not participate in the match has no
entry (Python's `groupdict` reports it as `None`). -/
abbrev Caps := List (String × List Char)

/-- Record a capture, replacing an earlier capture of the same group. -/
def setCap (name : String) (v : List Char) : Caps → Caps
  | [] => [(name, v)]
  | (n, w) :: rest =>
      if n = name then (n, v) :: rest else (n, w) :: setCap name v rest

/-- Look up a captured group. -/
def getCap (caps : Caps) (name : String) : Option (List Char) :=
  match caps with
  | [] => none
  | (n, w) :: rest => if n = name then some w else getCap rest name

/-- Regular-expression fragment, covering exactly the constructs appearing in
the source's seven inline patterns. -/
inductive RE where
  /-- empty pattern -/
  | eps : RE
  /-- literal character run -/
  | lit : List Char → RE
  /-- single character of a class (`.`, `\d`, `\w`, `[^)]`, one letter) -/
  | cls : (Char → Bool) → RE
  /-- concatenation -/
  | cat : RE → RE → RE
  /-- greedy optional (`X?`), trying the body first -/
  | opt : RE → RE
  /-- greedy star over a class (`[^)]*`) -/
  | starG : (Char → Bool) → RE
  /-- lazy star over a class (`.*?`) -/
  | starL : (Char → Bool) → RE
  /-- greedy plus over a class (`\d+`, `\w+`, ` +`) -/
  | plusG : (Char → Bool) → RE
  /-- lazy plus over a class (`.+?`) -/
  | plusL : (Char → Bool) → RE
  /-- named capture group -/
  | grp : String → RE → RE

/-- Characters matched by `.` in a Python pattern: anything except a newline. -/
def dotP (c : Char) : Bool := c != '\n'

/-- Characters matched by `\w` (ASCII view, enough for the source's inputs). -/
def wordP (c : Char) : Bool := c.isAlphanum || c == '_'

/-- Length of the maximal prefix run of characters of a class. -/
def maxRun (p : Char → Bool) : List Char → Nat
  | [] => 0
  | c :: rest => if p c then maxRun p rest + 1 else 0

/-- Return the first `some` among `f i` for `i` in the candidate list:
the backtracking order of a quantifier. -/
def firstSome (f : Nat → Option α) : List Nat → Option α
  | [] => none
  | i :: rest =>
      match f i with
      | some r => some r
      | none => firstSome f rest

/-- Candidate repetition counts `m, m-1, …, lo` (greedy order). -/
def descRange (m lo : Nat) : List Nat := (List.range' lo (m + 1 - lo)).reverse

/-- Candidate repetition counts `lo, …, m` (lazy order). -/
def ascRange (lo m : Nat) : List Nat := List.range' lo (m + 1 - lo)

/-- Result of a match attempt: remaining input and captures. -/
abbrev MRes := List Char × Caps

/-- Backtracking matcher in continuation-passing style.  `matchRE re s caps k`
tries every way `re` can consume a prefix of `s`, in Python's backtracking
order, calling `k` with the rest of the input and the updated captures. -/
def matchRE : RE → List Char → Caps → (List Char → Caps → Option MRes) → Option MRes
  | .eps, s, caps, k => k s caps
  | .lit l, s, caps, k =>
      if l.isPrefixOf s then k (s.drop l.length) caps else none
  | .cls p, s, caps, k =>
      match s with
      | [] => none
      | c :: rest => if p c then k rest caps else none
  | .cat a b, s, caps, k =>
      matchRE a s caps (fun s1 c1 => matchRE b s1 c1 k)
  | .opt a, s, caps, k =>
      match matchRE a s caps k with
      | some r => some r
      | none => k s caps
  | .starG p, s, caps, k =>
      firstSome (fun i => k (s.drop i) caps) (descRange (maxRun p s) 0)
  | .starL p, s, caps, k =>
      firstSome (fun i => k (s.drop i) caps) (ascRange 0 (maxRun p s))
  | .plusG p, s, caps, k =>
      firstSome (fun i => k (s.drop i) caps) (descRange (maxRun p s) 1)
  | .plusL p, s, caps, k =>
      firstSome (fun i => k (s.drop i) caps) (ascRange 1 (maxRun p s))
  | .grp name a, s, caps, k =>
      matchRE a s caps
        (fun s1 c1 => k s1 (setCap name (s.take (s.length - s1.length)) c1))

/-- Match a pattern at the start of the input (Python `re.match`), returning
the captured groups and the number of characters consumed. -/
def reMatch (re : RE) (s : List Char) : Option (Caps × Nat) :=
  match matchRE re s [] (fun s1 c1 => some (s1, c1)) with
  | none => none
  | some (s1, caps) => some (caps, s.length - s1.length)

/-- Literal pattern from a string. -/
def reStr (s : String) : RE := .lit s.toList

/-- Right-nested concatenation of a pattern list. -/
def reSeq : List RE → RE
  | [] => .eps
  | [r] => r
  | r :: rest => .cat r (reSeq rest)

/-- `OPT_LINK_TEXT`: the source's regexp for an optional link text,
`(?:\[(?P<link_text>.*?)\])?`. -/
def OPT_LINK_TEXT : RE :=
  .opt (reSeq [reStr "[", .grp "link_text" (.starL dotP), reStr "]"])

/-- `InternalLinkLongForm.pattern`: `OPT_LINK_TEXT` followed by
`\(https?://.*?boardgamegeek\.com[^)]*/(?P<link_type>.*?)/(?P<object_ID>\d+).*?\)`. -/
def internalLinkLongFormPat : RE :=
  reSeq [OPT_LINK_TEXT,
    reStr "(http", .opt (.cls (· == 's')), reStr "://",
    .starL dotP, reStr "boardgamegeek.com",
    .starG (· != ')'),
    reStr "/", .grp "link_type" (.starL dotP),
    reStr "/", .grp "object_ID" (.plusG Char.isDigit),
    .starL dotP, reStr ")"]

/-- `InternalLinkShortForm.pattern`: `OPT_LINK_TEXT` followed by
`\((?P<link_type>.*?)=(?P<object_ID>\d+)\)`. -/
def internalLinkShortFormPat : RE :=
  reSeq [OPT_LINK_TEXT,
    reStr "(", .grp "link_type" (.starL dotP),
    reStr "=", .grp "object_ID" (.plusG Char.isDigit), reStr ")"]

/-- The optional size suffix `(?: +(?P<size>\w+))?` of both image patterns. -/
def optSizePat : RE :=
  .opt (.cat (.plusG (· == ' ')) (.grp "size" (.plusG wordP)))

/-- `InternalImageLongForm.pattern`:
`!\(https?://.*?boardgamegeek.com.*?/image/(?P<image_ID>\d+).*?(?: +(?P<size>\w+))?\)`
(the dot before `com` is unescaped in the source, hence `cls dotP` here). -/
def internalImageLongFormPat : RE :=
  reSeq [reStr "!(http", .opt (.cls (· == 's')), reStr "://",
    .starL dotP, reStr "boardgamegeek", .cls dotP, reStr "com",
    .starL dotP, reStr "/image/", .grp "image_ID" (.plusG Char.isDigit),
    .starL dotP, optSizePat, reStr ")"]

/-- `InternalImageShortForm.pattern`:
`!\(imageid=(?P<image_ID>.+?)(?: +(?P<size>\w+))?\)` — note that `image_ID`
is `.+?` here, not `\d+`. -/
def internalImageShortFormPat : RE :=
  reSeq [reStr "!(imageid=", .grp "image_ID" (.plusL dotP), optSizePat,
    reStr ")"]

/-- `ExternalImage.pattern`: `!\((?P<image_URL>.*?)\)`. -/
def externalImagePat : RE :=
  reSeq [reStr "!(", .grp "image_URL" (.starL dotP), reStr ")"]

/-- `YouTubeLongForm.pattern`:
`\(https?://.*?youtu.*?/watch\?v=(?P<video_ID>.+?)\)`. -/
def youTubeLongFormPat : RE :=
  reSeq [reStr "(http", .opt (.cls (· == 's')), reStr "://",
    .starL dotP, reStr "youtu", .starL dotP,
    reStr "/watch?v=", .grp "video_ID" (.plusL dotP), reStr ")"]

/-- `YouTubeShortForm.pattern`: `\(youtube=(?P<video_ID>.+?)\)`. -/
def youTubeShortFormPat : RE :=
  reSeq [reStr "(youtube=", .grp "video_ID" (.plusL dotP), reStr ")"]

/-!
## Python `str.format`, one positional argument

`BGG_wrap` interpolates `code` and `contents` into a template with an
f-string and then calls `.format(...)` on the *result*, so any brace inside
`code` or `contents` is parsed again as a replacement field.  The model below
follows CPython's behavior for a single positional argument: `\x7b\x7d`
consumes the next automatic index, `\x7b0\x7d` the argument itself, doubled
braces denote literal braces, a second automatic field (or any index other
than 0) is an `IndexError`, switching between automatic and manual numbering
is a `ValueError`, and an unterminated or stray brace is a `ValueError`.
-/

/-- Parsing mode of the `str.format` scanner: in plain text, right after a
single left resp. right brace (which may turn out to be doubled), or inside a
replacement field. -/
inductive FmtMode where
  | normal
  | afterL
  | afterR
  | inField (field : List Char)
deriving DecidableEq, Repr

/-- State of the `str.format` scanner: output so far, mode, and whether
automatic resp. manual field numbering has been used. -/
structure FmtSt where
  out : List Char
  mode : FmtMode
  au : Bool
  mu : Bool
deriving DecidableEq, Repr

/-- Substitute a complete replacement field: an empty field consumes the next
automatic index (only index 0 exists), an all-digits field is a manual index
(only 0 is in range), anything else is a key lookup that fails; switching
between automatic and manual numbering is an error. -/
def fmtField (arg : List Char) (st : FmtSt) (field : List Char) :
    Except String FmtSt :=
  if field = [] then
    if st.mu then
      .error "ValueError: cannot switch from manual field specification to automatic field numbering"
    else if st.au then
      .error "IndexError: Replacement index 1 out of range for positional args tuple"
    else
      .ok ⟨st.out ++ arg, .normal, true, st.mu⟩
  else if field.all Char.isDigit then
    if st.au then
      .error "ValueError: cannot switch from automatic field numbering to manual field specification"
    else if field.all (· = '0') then
      .ok ⟨st.out ++ arg, .normal, st.au, true⟩
    else
      .error "IndexError: Replacement index out of range"
  else
    .error "KeyError"

/-- One step of the `str.format` scanner. -/
def fmtStep (arg : List Char) (st : FmtSt) (c : Char) : Except String FmtSt :=
  match st.mode with
  | .normal =>
      if c = lbrace then .ok ⟨st.out, .afterL, st.au, st.mu⟩
      else if c = rbrace then .ok ⟨st.out, .afterR, st.au, st.mu⟩
      else .ok ⟨st.out ++ [c], .normal, st.au, st.mu⟩
  | .afterL =>
      if c = lbrace then .ok ⟨st.out ++ [lbrace], .normal, st.au, st.mu⟩
      else if c = rbrace then fmtField arg st []
      else .ok ⟨st.out, .inField [c], st.au, st.mu⟩
  | .afterR =>
      if c = rbrace then .ok ⟨st.out ++ [rbrace], .normal, st.au, st.mu⟩
      else .error "ValueError: Single right brace encountered in format string"
  | .inField field =>
      if c = rbrace then fmtField arg st field
      else .ok ⟨st.out, .inField (field ++ [c]), st.au, st.mu⟩

/-- Final check of the `str.format` scanner: a dangling brace is an error. -/
def fmtFinish (st : FmtSt) : Except String (List Char) :=
  match st.mode with
  | .normal => .ok st.out
  | .afterL => .error "ValueError: Single left brace encountered in format string"
  | .afterR => .error "ValueError: Single right brace encountered in format string"
  | .inField _ => .error "ValueError: expected an end bracket in format string"

/-- `template.format(arg)` with a single positional argument, on character
lists. -/
def pyFormat1L (arg template : List Char) : Except String (List Char) := do
  fmtFinish (← template.foldlM (fmtStep arg) ⟨[], .normal, false, false⟩)

/-- `template.format(arg)` for strings. -/
def pyFormat1 (template arg : String) : Except String String :=
  (pyFormat1L arg.toList template.toList).map String.mk

/-!
## The rendering helpers of the source
-/

/-- The argument `BGG_wrap` hands to `format`: the Python expression
`"" if code_value is None else "=\x7b\x7d".format(code_value)` (the inner
`format` puts `code_value` in argument position, hence verbatim). -/
def paramStr : Option String → String
  | none => ""
  | some v => "=" ++ v

/-- Translation of `BGG_wrap(code, contents, code_value=None)`:

    return f"[\x7bcode\x7d\x7b\x7b\x7d\x7d]\x7bcontents\x7d[/\x7bcode\x7d]".format(
        "" if code_value is None else "=\x7b\x7d".format(code_value))

The f-string evaluates first, yielding the template
`[<code>\x7b\x7d]<contents>[/<code>]`, and `.format` is then applied to that
template, with the single argument `""` or `"=<code_value>"`. -/
def BGG_wrap (code contents : String) (code_value : Option String := none) :
    Except String String :=
  pyFormat1
    ("[" ++ code ++ String.mk [lbrace, rbrace] ++ "]" ++ contents ++ "[/" ++ code ++ "]")
    (paramStr code_value)

/-- How Python prints a `groupdict` value when it is interpolated into a
string: a captured run prints as itself, a group that did not participate
prints as `None`. -/
def pyStr : Option (List Char) → String
  | none => "None"
  | some l => String.mk l

/-- `render_internal_link_long_form`: wrap the rendered children in a tag
named after the captured `link_type`, parameterized by `object_ID`. -/
def render_internal_link_long_form (link_parts : Caps) (childrenRendered : String) :
    Except String String :=
  BGG_wrap (pyStr (getCap link_parts "link_type")) childrenRendered
    ((getCap link_parts "object_ID").map String.mk)

/-- `render_internal_link_short_form = render_internal_link_long_form`
(the source binds the very same function object). -/
def render_internal_link_short_form : Caps → String → Except String String :=
  render_internal_link_long_form

/-- `render_internal_image_long_form`:
`"[imageid=\x7b\x7d\x7b\x7d]".format(image_ID, " " + size if size is not None else "")`
— here the captured texts are arguments of `format`, so they are inserted
verbatim and no error can occur. -/
def render_internal_image_long_form (image_info : Caps) : String :=
  "[imageid=" ++ pyStr (getCap image_info "image_ID") ++
    (match getCap image_info "size" with
     | some sz => " " ++ String.mk sz
     | none => "") ++ "]"

/-- `render_internal_image_short_form = render_internal_image_long_form`. -/
def render_internal_image_short_form : Caps → String :=
  render_internal_image_long_form

/-- `render_external_image`: `BGG_wrap("img", element.image_URL)` — the raw
captured URL, no escaping. -/
def render_external_image (image_URL : Option (List Char)) : Except String String :=
  BGG_wrap "img" (pyStr image_URL)

/-- `render_you_tube_long_form`: `"[youtube=\x7b\x7d]".format(element.video_ID)`. -/
def render_you_tube_long_form (video_ID : Option (List Char)) : String :=
  "[youtube=" ++ pyStr video_ID ++ "]"

/-- `render_you_tube_short_form = render_you_tube_long_form`. -/
def render_you_tube_short_form : Option (List Char) → String :=
  render_you_tube_long_form

/-- `render_link`: wrap the rendered children in a `url` tag parameterized by
the escaped destination; the link title is ignored.  The URL-escaping utility
(`marko.HTMLRenderer.escape_url`) belongs to the external engine and is
therefore a parameter here, as in the spec's collaborator contract (§6c). -/
def render_link (escape_url : String → String) (childrenRendered dest : String)
    (_title : Option String) : Except String String :=
  BGG_wrap "url" childrenRendered (some (escape_url dest))

/-- `render_quote`: wrap the rendered children in a `q` tag. -/
def render_quote (childrenRendered : String) : Except String String :=
  BGG_wrap "q" childrenRendered

/-- `render_emphasis`: wrap the rendered children in an `i` tag. -/
def render_emphasis (childrenRendered : String) : Except String String :=
  BGG_wrap "i" childrenRendered

/-- `render_strong_emphasis`: wrap the rendered children in a `b` tag. -/
def render_strong_emphasis (childrenRendered : String) : Except String String :=
  BGG_wrap "b" childrenRendered

/-- `render_line_break`: a soft break is a space, a hard break a newline. -/
def render_line_break (soft : Bool) : String :=
  if soft then " " else "\n"

/-!
## Renderer state and the block renderers

The external engine's `MarkdownRenderer` owns two mutable attributes,
`_prefix` and `_second_prefix`, and a `container` context manager; they are
not part of the repository, so they are modelled from the spec (§3 "Renderer
State").
-/

/-- Modelled from the spec: the renderer's cross-call state — the prefix for
the next emitted line start and the continuation prefix for wrapped lines. -/
structure RState where
  linePfx : String
  secondPfx : String
deriving DecidableEq, Repr

/-- Modelled from the spec: the engine's `container` context manager.  It
appends the two given strings to the current and continuation prefixes for
the duration of one child render and then restores the saved values (the
prefixes are "pushed before rendering a list item's children, popped —
reassigned to the parent's — immediately after"). -/
def container (pfxAdd secondAdd : String)
    (body : RState → Except String (String × RState)) (st : RState) :
    Except String (String × RState) := do
  let (out, _) ← body ⟨st.linePfx ++ pfxAdd, st.secondPfx ++ secondAdd⟩
  .ok (out, ⟨st.linePfx, st.secondPfx⟩)

/-- The heading-level → font-size dictionary `\x7b1: 24, 2: 18\x7d` of
`render_heading`. -/
def headingSizes (level : Nat) : Option Nat :=
  if level = 1 then some 24 else if level = 2 then some 18 else none

/-- Translation of `render_heading`.  The size lookup comes first in the
source, so an unsupported level raises `KeyError(level)` before the children
are rendered and before any output is assembled; for levels 1 and 2 the
output is the current prefix, the size-wrapped children and a newline, and
the line prefix is then reset to the continuation prefix. -/
def render_heading (level : Nat) (childrenRendered : Except String String)
    (st : RState) : Except String (String × RState) :=
  match headingSizes level with
  | none => .error ("KeyError: " ++ toString level)
  | some size => do
      let ch ← childrenRendered
      let w ← BGG_wrap "size" ch (some (toString size))
      .ok (st.linePfx ++ w ++ "\n", ⟨st.secondPfx, st.secondPfx⟩)

/-- `"".join` of the per-item outputs (right-nested appends; `str.join` is
associative so this agrees with Python's result). -/
def joinAll : List String → String
  | [] => ""
  | a :: rest => a ++ joinAll rest

/-- A run of `n` spaces. -/
def spaces (n : Nat) : String := String.mk (List.replicate n ' ')

/-- The ordered-list loop of `render_list`: item number `num` is rendered
inside `container(f"\x7bnum\x7d. ", " " * (len(str(num)) + 2))`, and `num`
counts up from the list's start number. -/
def render_list_ordered (items : List (RState → Except String (String × RState)))
    (num : Nat) (st : RState) : Except String (List String × RState) :=
  match items with
  | [] => .ok ([], st)
  | item :: rest => do
      let (out, st1) ←
        container (toString num ++ ". ") (spaces ((toString num).length + 2)) item st
      let (outs, st2) ← render_list_ordered rest (num + 1) st1
      .ok (out :: outs, st2)

/-- The unordered-list loop of `render_list`: each item is rendered inside
`container(f"\x7bbullet\x7d ", "  ")`. -/
def render_list_unordered (items : List (RState → Except String (String × RState)))
    (bullet : String) (st : RState) : Except String (List String × RState) :=
  match items with
  | [] => .ok ([], st)
  | item :: rest => do
      let (out, st1) ← container (bullet ++ " ") "  " item st
      let (outs, st2) ← render_list_unordered rest bullet st1
      .ok (out :: outs, st2)

/-- Translation of `render_list`: run the appropriate loop, then set the line
prefix to the continuation prefix and return the concatenated item outputs.
The items are the recursive renders `self.render(child)` of the element's
children, in document order. -/
def render_list (ordered : Bool) (start : Nat) (bullet : String)
    (items : List (RState → Except String (String × RState))) (st : RState) :
    Except String (String × RState) := do
  let (outs, st1) ←
    if ordered then render_list_ordered items start st
    else render_list_unordered items bullet st
  .ok (joinAll outs, ⟨st1.secondPfx, st1.secondPfx⟩)

/-- Modelled from the spec: the code-span renderer.  `BGGRenderer` does not
override code-span rendering, so the behavior is the external engine's, whose
code is not part of the repository; spec §4.2: "if the literal text itself
begins or ends with a backtick character, wrap it with
double-backtick-plus-space delimiters on both sides …; otherwise wrap the
text in a code-tag construct". -/
def render_code_span (text : String) : String :=
  if text.toList.head? = some btick ∨ text.toList.getLast? = some btick then
    "`` " ++ text ++ " ``"
  else
    "[c]" ++ text ++ "[/c]"

/-!
## The inline scanner and the end-to-end inline pipeline

The scanning loop itself belongs to the external engine; it is modelled from
the spec (§4.1 and §9): at every position the registered matchers are
consulted in priority order (ties broken by registration order), each one
anchored at the current position; if none matches, one literal character is
consumed.  The matchers, their patterns and their priorities are the
repository's.
-/

/-- The seven custom inline element kinds registered by `BGGExtension`. -/
inductive MatcherKind where
  | linkLong | linkShort | imageLong | imageShort | extImage | ytLong | ytShort
deriving DecidableEq, Repr

/-- The pattern of each element class. -/
def patternOf : MatcherKind → RE
  | .linkLong => internalLinkLongFormPat
  | .linkShort => internalLinkShortFormPat
  | .imageLong => internalImageLongFormPat
  | .imageShort => internalImageShortFormPat
  | .extImage => externalImagePat
  | .ytLong => youTubeLongFormPat
  | .ytShort => youTubeShortFormPat

/-- The registered elements with their priorities, in registration order
(`BGGExtension.elements`).  `ExternalImage` and `YouTubeLongForm` declare no
priority and get the engine's default for inline elements, which the spec
pegs at the standard-link priority level 5. -/
def registeredMatchers : List (MatcherKind × Nat) :=
  [(.linkLong, 6), (.linkShort, 6), (.imageLong, 7), (.imageShort, 7),
   (.extImage, 5), (.ytLong, 5), (.ytShort, 7)]

/-- Modelled from the spec: the order in which matchers are consulted —
strictly higher priority first, ties in registration order.  The registered
priorities are all among 5, 6, 7. -/
def matcherOrder : List MatcherKind :=
  ((registeredMatchers.filter (fun m => m.2 == 7)) ++
   (registeredMatchers.filter (fun m => m.2 == 6)) ++
   (registeredMatchers.filter (fun m => m.2 == 5))).map (·.1)

/-- Try the matchers on the remaining text in the given order; return the
first that matches, with its captures and consumed length. -/
def tryMatchers : List MatcherKind → List Char → Option (MatcherKind × Caps × Nat)
  | [], _ => none
  | m :: rest, s =>
      match reMatch (patternOf m) s with
      | some (caps, n) => some (m, caps, n)
      | none => tryMatchers rest s

/-- An inline node produced by the scanner: a literal character, or one of
the custom nodes with the data its `__init__` stores (`groupdict()` for the
link and image forms, the single captured group for external images and
videos).  The two link forms carry parsed children (`parse_children = True`,
the children being parsed from the `link_text` group). -/
inductive Inl where
  | lit (c : Char)
  | linkLong (link_parts : Caps) (children : List Inl)
  | linkShort (link_parts : Caps) (children : List Inl)
  | imageLong (image_info : Caps)
  | imageShort (image_info : Caps)
  | extImage (image_URL : Option (List Char))
  | ytLong (video_ID : Option (List Char))
  | ytShort (video_ID : Option (List Char))
deriving Repr

/-- The text whose parse becomes the children of a link node: the captured
`link_text` group, or nothing when the text was omitted. -/
def childText (caps : Caps) : List Char :=
  match getCap caps "link_text" with
  | none => []
  | some t => t

/-- Build the node for a successful match, parsing the link text with the
supplied sub-scanner when the element parses children. -/
def mkNode (m : MatcherKind) (caps : Caps) (sub : List Char → List Inl) : Inl :=
  match m with
  | .linkLong => .linkLong caps (sub (childText caps))
  | .linkShort => .linkShort caps (sub (childText caps))
  | .imageLong => .imageLong caps
  | .imageShort => .imageShort caps
  | .extImage => .extImage (getCap caps "image_URL")
  | .ytLong => .ytLong (getCap caps "video_ID")
  | .ytShort => .ytShort (getCap caps "video_ID")

/-- Modelled from the spec: the scanning loop.  At each position the matchers
are consulted in priority order; a match consumes its span and yields its
node, otherwise one literal character is consumed.  The fuel argument (the
initial text length suffices) makes the recursion obviously terminating. -/
def scan : Nat → List Char → List Inl
  | 0, _ => []
  | _, [] => []
  | fuel + 1, c :: rest =>
      match tryMatchers matcherOrder (c :: rest) with
      | some (m, caps, n) =>
          if n = 0 then .lit c :: scan fuel rest
          else mkNode m caps (scan fuel) :: scan fuel ((c :: rest).drop n)
      | none => .lit c :: scan fuel rest

/-- Parse a line of inline text into nodes. -/
def parseInline (s : String) : List Inl :=
  scan s.toList.length s.toList

mutual

/-- Render one inline node, dispatching to the source's render functions. -/
def renderInl : Inl → Except String String
  | .lit c => .ok (String.mk [c])
  | .linkLong link_parts children => do
      let ch ← renderInls children
      render_internal_link_long_form link_parts ch
  | .linkShort link_parts children => do
      let ch ← renderInls children
      render_internal_link_short_form link_parts ch
  | .imageLong image_info => .ok (render_internal_image_long_form image_info)
  | .imageShort image_info => .ok (render_internal_image_short_form image_info)
  | .extImage image_URL => render_external_image image_URL
  | .ytLong video_ID => .ok (render_you_tube_long_form video_ID)
  | .ytShort video_ID => .ok (render_you_tube_short_form video_ID)

/-- Render a list of inline nodes in order and concatenate. -/
def renderInls : List Inl → Except String String
  | [] => .ok ""
  | x :: rest => do
      let a ← renderInl x
      let b ← renderInls rest
      .ok (a ++ b)

end

/-- The inline conversion pipeline: scan the text with the registered custom
matchers and render the resulting nodes. -/
def renderInlineText (s : String) : Except String String :=
  renderInls (parseInline s)

/-!
## Basic lemmas
-/

instance {e a : Type} [DecidableEq e] [DecidableEq a] : DecidableEq (Except e a)
  | .ok x, .ok y =>
      if h : x = y then .isTrue (by rw [h]) else .isFalse (by simp [h])
  | .ok _, .error _ => .isFalse (by simp)
  | .error _, .ok _ => .isFalse (by simp)
  | .error x, .error y =>
      if h : x = y then .isTrue (by rw [h]) else .isFalse (by simp [h])

@[simp] theorem ok_bind {α β : Type} (y : α) (g : α → Except String β) :
    (Except.ok y >>= g) = g y := rfl

@[simp] theorem error_bind {α β : Type} (e : String) (g : α → Except String β) :
    ((Except.error e : Except String α) >>= g) = .error e := rfl

@[simp] theorem map_ok {α β : Type} (f : α → β) (y : α) :
    (Except.ok y : Except String α).map f = .ok (f y) := rfl

@[simp] theorem map_error {α β : Type} (f : α → β) (e : String) :
    (Except.error e : Except String α).map f = .error e := rfl

/-- `s` contains no brace character. -/
def braceFreeL (l : List Char) : Prop := ∀ c ∈ l, c ≠ lbrace ∧ c ≠ rbrace

/-- Decidable brace-freeness for strings. -/
def braceFree (s : String) : Bool := s.toList.all (fun c => c != lbrace && c != rbrace)

theorem braceFreeL_of_braceFree {s : String} (h : braceFree s = true) :
    braceFreeL s.toList := by
  intro c hc
  have := (List.all_eq_true.mp h) c hc
  constructor <;> intro hEq <;> subst hEq <;> simp_all

theorem braceFreeL_append {l₁ l₂ : List Char} (h₁ : braceFreeL l₁)
    (h₂ : braceFreeL l₂) : braceFreeL (l₁ ++ l₂) := by
  intro c hc
  rcases List.mem_append.mp hc with h | h
  · exact h₁ c h
  · exact h₂ c h

/-- Brace-free characters are copied verbatim by the format scanner. -/
theorem foldlM_fmtStep_copy (arg : List Char) (l : List Char) (h : braceFreeL l) :
    ∀ (rest out : List Char) (au mu : Bool),
    List.foldlM (fmtStep arg) (⟨out, .normal, au, mu⟩ : FmtSt) (l ++ rest) =
      List.foldlM (fmtStep arg) (⟨out ++ l, .normal, au, mu⟩ : FmtSt) rest := by
  induction l with
  | nil => intro rest out au mu; simp
  | cons c t ih =>
      intro rest out au mu
      obtain ⟨h1, h2⟩ := h c (List.mem_cons_self ..)
      have step : fmtStep arg ⟨out, .normal, au, mu⟩ c = .ok ⟨out ++ [c], .normal, au, mu⟩ := by
        simp [fmtStep, h1, h2]
      simp only [List.cons_append, List.foldlM_cons, step, ok_bind]
      have := ih (fun c hc => h c (List.mem_cons_of_mem _ hc)) rest (out ++ [c]) au mu
      simpa using this

/-- Special case of the copy lemma: a whole brace-free template is copied
verbatim and the scanner ends in plain-text mode. -/
theorem foldlM_fmtStep_final (arg : List Char) (l : List Char) (h : braceFreeL l)
    (out : List Char) (au mu : Bool) :
    List.foldlM (fmtStep arg) (⟨out, .normal, au, mu⟩ : FmtSt) l =
      .ok ⟨out ++ l, .normal, au, mu⟩ := by
  have := foldlM_fmtStep_copy arg l h [] out au mu
  simpa using this

/-- When neither the tag code nor the contents contain a brace, `BGG_wrap`
produces exactly the construct its docstring promises. -/
theorem BGG_wrap_ok (code contents : String) (v : Option String)
    (hc : braceFree code = true) (hk : braceFree contents = true) :
    BGG_wrap code contents v =
      .ok (("[" ++ code ++ paramStr v ++ "]") ++ contents ++ ("[/" ++ code ++ "]")) := by
  unfold BGG_wrap pyFormat1 pyFormat1L
  have hdata : ("[" ++ code ++ String.mk [lbrace, rbrace] ++ "]" ++ contents ++ "[/" ++ code
      ++ "]").toList =
      ("[".toList ++ code.toList) ++ (lbrace :: rbrace ::
        (("]".toList ++ contents.toList ++ "[/".toList ++ code.toList ++ "]".toList))) := by
    show ("[" ++ code ++ String.mk [lbrace, rbrace] ++ "]" ++ contents ++ "[/" ++ code
      ++ "]").data = _
    simp [String.data_append, String.toList]
  rw [hdata]
  have hbf1 : braceFreeL ("[".toList ++ code.toList) :=
    braceFreeL_append (braceFreeL_of_braceFree (by decide))
      (braceFreeL_of_braceFree hc)
  rw [foldlM_fmtStep_copy _ _ hbf1]
  simp only [List.foldlM_cons]
  have s1 : fmtStep (paramStr v).toList ⟨[] ++ ("[".toList ++ code.toList), .normal, false, false⟩
      lbrace =
      .ok ⟨[] ++ ("[".toList ++ code.toList), .afterL, false, false⟩ := by
    simp [fmtStep]
  rw [s1, ok_bind]
  have s2 : fmtStep (paramStr v).toList ⟨[] ++ ("[".toList ++ code.toList), .afterL, false, false⟩
      rbrace =
      .ok ⟨([] ++ ("[".toList ++ code.toList)) ++ (paramStr v).toList, .normal, true, false⟩ := by
    have hne : ¬ (rbrace = lbrace) := by decide
    simp [fmtStep, hne, fmtField]
  rw [s2, ok_bind]
  have hbf2 : braceFreeL ("]".toList ++ contents.toList ++ "[/".toList ++ code.toList
      ++ "]".toList) := by
    refine braceFreeL_append (braceFreeL_append (braceFreeL_append (braceFreeL_append
      (braceFreeL_of_braceFree (by decide)) (braceFreeL_of_braceFree hk))
      (braceFreeL_of_braceFree (by decide)))
      (braceFreeL_of_braceFree hc)) (braceFreeL_of_braceFree (by decide))
  rw [foldlM_fmtStep_final _ _ hbf2, ok_bind]
  show Except.map String.mk (fmtFinish _) = _
  simp only [fmtFinish, map_ok]
  congr 1
  apply String.ext
  show _ = (("[" ++ code ++ paramStr v ++ "]") ++ contents ++ ("[/" ++ code ++ "]")).data
  simp [String.data_append, String.toList]

/-!
## Capture invariants of the matcher

The claims about `object_ID` and `image_ID` are universally quantified over
the input, so they need invariant lemmas about the backtracking matcher:
whatever a group whose body is a `plus` quantifier captures is a non-empty
run of its character class, and a group that is not under an optional always
captures.  The lemmas are stated in continuation-passing style, mirroring the
matcher.
-/

theorem getCap_setCap_self (caps : Caps) (n : String) (v : List Char) :
    getCap (setCap n v caps) n = some v := by
  induction caps with
  | nil => simp [setCap, getCap]
  | cons hd tl ih =>
      by_cases h : hd.1 = n <;> simp [setCap, getCap, h, ih]

theorem getCap_setCap_ne (caps : Caps) {m n : String} (h : m ≠ n) (v : List Char) :
    getCap (setCap m v caps) n = getCap caps n := by
  induction caps with
  | nil => simp [setCap, getCap, h]
  | cons hd tl ih =>
      by_cases h1 : hd.1 = m
      · simp [setCap, getCap, h1, h]
      · simp only [setCap, h1, if_neg]
        by_cases h2 : hd.1 = n <;> simp [getCap, h2, ih]

theorem firstSome_eq_some {α : Type} {f : Nat → Option α} {l : List Nat} {r : α}
    (h : firstSome f l = some r) : ∃ i ∈ l, f i = some r := by
  induction l with
  | nil => simp [firstSome] at h
  | cons i t ih =>
      rw [firstSome] at h
      cases hf : f i with
      | some r' =>
          rw [hf] at h
          simp only at h
          exact ⟨i, by simp, by rw [hf, h]⟩
      | none =>
          rw [hf] at h
          simp only at h
          obtain ⟨j, hj, hfj⟩ := ih h
          exact ⟨j, by simp [hj], hfj⟩

theorem mem_descRange {i m lo : Nat} (h : i ∈ descRange m lo) : lo ≤ i ∧ i ≤ m := by
  unfold descRange at h
  rw [List.mem_reverse] at h
  have := List.mem_range'.mp h
  omega

theorem mem_ascRange {i m lo : Nat} (h : i ∈ ascRange lo m) : lo ≤ i ∧ i ≤ m := by
  unfold ascRange at h
  have := List.mem_range'.mp h
  omega

theorem maxRun_le_length (p : Char → Bool) (s : List Char) : maxRun p s ≤ s.length := by
  induction s with
  | nil => simp [maxRun]
  | cons c t ih =>
      by_cases h : p c
      · simp [maxRun, h]
        omega
      · simp [maxRun, h]

theorem take_all_of_le_maxRun (p : Char → Bool) {s : List Char} {i : Nat}
    (h : i ≤ maxRun p s) : (s.take i).all p = true := by
  induction s generalizing i with
  | nil => simp
  | cons c t ih =>
      cases i with
      | zero => simp
      | succ j =>
          by_cases hp : p c
          · rw [maxRun, if_pos hp] at h
            simp only [List.take_succ_cons, List.all_cons, hp, Bool.true_and]
            exact ih (by omega)
          · rw [maxRun, if_neg hp] at h
            omega

/-- Invariant propagation: if a predicate on capture dictionaries is
preserved by every `setCap`, holds for the initial dictionary, and the
continuation never returns the result `r` from a dictionary satisfying it,
then the matcher cannot return `r`. -/
theorem matchRE_inv (I : Caps → Prop)
    (hI : ∀ m v c, I c → I (setCap m v c)) :
    ∀ (re : RE) (s : List Char) (caps : Caps)
      (k : List Char → Caps → Option MRes) (r : MRes),
      I caps →
      (∀ s1 c1, I c1 → k s1 c1 ≠ some r) →
      matchRE re s caps k ≠ some r := by
  intro re
  induction re with
  | eps =>
      intro s caps k r hcaps hk
      exact hk s caps hcaps
  | lit l =>
      intro s caps k r hcaps hk
      rw [matchRE]
      split
      · exact hk _ _ hcaps
      · simp
  | cls p =>
      intro s caps k r hcaps hk
      cases s with
      | nil => simp [matchRE]
      | cons c rest =>
          simp only [matchRE]
          split
          · exact hk _ _ hcaps
          · simp
  | cat a b iha ihb =>
      intro s caps k r hcaps hk
      rw [matchRE]
      exact iha s caps _ r hcaps (fun s1 c1 hc1 => ihb s1 c1 k r hc1 hk)
  | opt a iha =>
      intro s caps k r hcaps hk
      rw [matchRE]
      cases h : matchRE a s caps k with
      | some r' =>
          intro heq
          simp only at heq
          cases heq
          exact iha s caps k r hcaps hk h
      | none => exact hk s caps hcaps
  | starG p =>
      intro s caps k r hcaps hk heq
      rw [matchRE] at heq
      obtain ⟨i, _, hf⟩ := firstSome_eq_some heq
      exact hk _ _ hcaps hf
  | starL p =>
      intro s caps k r hcaps hk heq
      rw [matchRE] at heq
      obtain ⟨i, _, hf⟩ := firstSome_eq_some heq
      exact hk _ _ hcaps hf
  | plusG p =>
      intro s caps k r hcaps hk heq
      rw [matchRE] at heq
      obtain ⟨i, _, hf⟩ := firstSome_eq_some heq
      exact hk _ _ hcaps hf
  | plusL p =>
      intro s caps k r hcaps hk heq
      rw [matchRE] at heq
      obtain ⟨i, _, hf⟩ := firstSome_eq_some heq
      exact hk _ _ hcaps hf
  | grp m a iha =>
      intro s caps k r hcaps hk
      rw [matchRE]
      exact iha s caps _ r hcaps
        (fun s1 c1 hc1 => hk s1 (setCap m (s.take (s.length - s1.length)) c1) (hI _ _ _ hc1))

/-- Every capture group named `n` inside `re` has a `plus` quantifier over
the class `p` as its body. -/
def PlusGroups (n : String) (p : Char → Bool) : RE → Prop
  | .cat a b => PlusGroups n p a ∧ PlusGroups n p b
  | .opt a => PlusGroups n p a
  | .grp m a => (m = n → a = .plusG p ∨ a = .plusL p) ∧ PlusGroups n p a
  | _ => True

/-- The capture recorded for `n`, if any, is a non-empty run of `p`. -/
def CapOK (n : String) (p : Char → Bool) (caps : Caps) : Prop :=
  ∀ v, getCap caps n = some v → v ≠ [] ∧ v.all p = true

theorem capOK_setCap_ne {n : String} {p : Char → Bool} {m : String}
    (h : m ≠ n) (v : List Char) {caps : Caps} (hc : CapOK n p caps) :
    CapOK n p (setCap m v caps) := by
  intro w hw
  rw [getCap_setCap_ne caps h v] at hw
  exact hc w hw

theorem capOK_setCap_good {n : String} {p : Char → Bool} {v : List Char}
    (hv : v ≠ [] ∧ v.all p = true) {caps : Caps} :
    CapOK n p (setCap n v caps) := by
  intro w hw
  rw [getCap_setCap_self caps n v] at hw
  cases hw
  exact hv

/-- Main capture-soundness lemma: with every `n`-group a `plus` over `p`,
the matcher only hands the continuation dictionaries whose `n`-capture is a
non-empty run of `p`. -/
theorem matchRE_capsOK (n : String) (p : Char → Bool) :
    ∀ (re : RE), PlusGroups n p re →
    ∀ (s : List Char) (caps : Caps)
      (k : List Char → Caps → Option MRes) (r : MRes),
      CapOK n p caps →
      (∀ s1 c1, CapOK n p c1 → k s1 c1 ≠ some r) →
      matchRE re s caps k ≠ some r := by
  intro re
  induction re with
  | eps =>
      intro _ s caps k r hcaps hk
      exact hk s caps hcaps
  | lit l =>
      intro _ s caps k r hcaps hk
      rw [matchRE]
      split
      · exact hk _ _ hcaps
      · simp
  | cls p' =>
      intro _ s caps k r hcaps hk
      cases s with
      | nil => simp [matchRE]
      | cons c rest =>
          simp only [matchRE]
          split
          · exact hk _ _ hcaps
          · simp
  | cat a b iha ihb =>
      intro hg s caps k r hcaps hk
      rw [matchRE]
      exact iha hg.1 s caps _ r hcaps (fun s1 c1 hc1 => ihb hg.2 s1 c1 k r hc1 hk)
  | opt a iha =>
      intro hg s caps k r hcaps hk
      rw [matchRE]
      cases h : matchRE a s caps k with
      | some r' =>
          intro heq
          simp only at heq
          cases heq
          exact iha hg s caps k r hcaps hk h
      | none => exact hk s caps hcaps
  | starG p' =>
      intro _ s caps k r hcaps hk heq
      rw [matchRE] at heq
      obtain ⟨i, _, hf⟩ := firstSome_eq_some heq
      exact hk _ _ hcaps hf
  | starL p' =>
      intro _ s caps k r hcaps hk heq
      rw [matchRE] at heq
      obtain ⟨i, _, hf⟩ := firstSome_eq_some heq
      exact hk _ _ hcaps hf
  | plusG p' =>
      intro _ s caps k r hcaps hk heq
      rw [matchRE] at heq
      obtain ⟨i, _, hf⟩ := firstSome_eq_some heq
      exact hk _ _ hcaps hf
  | plusL p' =>
      intro _ s caps k r hcaps hk heq
      rw [matchRE] at heq
      obtain ⟨i, _, hf⟩ := firstSome_eq_some heq
      exact hk _ _ hcaps hf
  | grp m a iha =>
      intro hg s caps k r hcaps hk
      by_cases hm : m = n
      · subst hm
        rcases hg.1 rfl with ha | ha
        · subst ha
          rw [matchRE, matchRE]
          intro heq
          obtain ⟨i, hi, hf⟩ := firstSome_eq_some heq
          obtain ⟨hi1, hi2⟩ := mem_descRange hi
          have hilen : i ≤ s.length := le_trans hi2 (maxRun_le_length p s)
          have hpre : s.length - (s.drop i).length = i := by
            simp [List.length_drop]
            omega
          rw [hpre] at hf
          have hne : s.take i ≠ [] := by
            have : (s.take i).length = i := by
              simp [List.length_take]
              omega
            intro hnil
            rw [hnil] at this
            simp at this
            omega
          exact hk _ _ (capOK_setCap_good ⟨hne, take_all_of_le_maxRun p hi2⟩) hf
        · subst ha
          rw [matchRE, matchRE]
          intro heq
          obtain ⟨i, hi, hf⟩ := firstSome_eq_some heq
          obtain ⟨hi1, hi2⟩ := mem_ascRange hi
          have hilen : i ≤ s.length := le_trans hi2 (maxRun_le_length p s)
          have hpre : s.length - (s.drop i).length = i := by
            simp [List.length_drop]
            omega
          rw [hpre] at hf
          have hne : s.take i ≠ [] := by
            have : (s.take i).length = i := by
              simp [List.length_take]
              omega
            intro hnil
            rw [hnil] at this
            simp at this
            omega
          exact hk _ _ (capOK_setCap_good ⟨hne, take_all_of_le_maxRun p hi2⟩) hf
      · rw [matchRE]
        exact iha hg.2 s caps _ r hcaps
          (fun s1 c1 hc1 => hk s1 _ (capOK_setCap_ne hm _ hc1))

/-- `n` names a group that participates in every successful match of `re`
(it is not under an optional or a star). -/
def MandGroup (n : String) : RE → Prop
  | .cat a b => MandGroup n a ∨ MandGroup n b
  | .grp m a => m = n ∨ MandGroup n a
  | _ => False

theorem isSome_setCap (n m : String) (v : List Char) (caps : Caps)
    (h : (getCap caps n).isSome = true) :
    (getCap (setCap m v caps) n).isSome = true := by
  by_cases hm : m = n
  · subst hm
    rw [getCap_setCap_self]
    rfl
  · rw [getCap_setCap_ne caps hm]
    exact h

/-- A mandatory group is present in the captures of every successful match. -/
theorem matchRE_mandatory (n : String) :
    ∀ (re : RE), MandGroup n re →
    ∀ (s : List Char) (caps : Caps)
      (k : List Char → Caps → Option MRes) (r : MRes),
      (∀ s1 c1, (getCap c1 n).isSome = true → k s1 c1 ≠ some r) →
      matchRE re s caps k ≠ some r := by
  intro re
  induction re with
  | eps => intro h; cases h
  | lit l => intro h; cases h
  | cls p => intro h; cases h
  | cat a b iha ihb =>
      intro hg s caps k r hk
      rw [matchRE]
      rcases hg with hga | hgb
      · exact iha hga s caps _ r
          (fun s1 c1 hc1 =>
            matchRE_inv (fun c => (getCap c n).isSome = true)
              (fun m v c hc => isSome_setCap n m v c hc) b s1 c1 k r hc1 hk)
      · exact matchRE_inv (fun _ => True) (fun _ _ _ _ => trivial) a s caps _ r trivial
          (fun s1 c1 _ => ihb hgb s1 c1 k r hk)
  | opt a iha => intro h; cases h
  | starG p => intro h; cases h
  | starL p => intro h; cases h
  | plusG p => intro h; cases h
  | plusL p => intro h; cases h
  | grp m a iha =>
      intro hg s caps k r hk
      rw [matchRE]
      rcases hg with hm | hga
      · subst hm
        exact matchRE_inv (fun _ => True) (fun _ _ _ _ => trivial) a s caps _ r trivial
          (fun s1 c1 _ => hk s1 _ (by rw [getCap_setCap_self]; rfl))
      · exact iha hga s caps _ r
          (fun s1 c1 hc1 => hk s1 _ (isSome_setCap n m _ c1 hc1))

/-- Extraction: a successful anchored match of a pattern whose `n`-groups are
`plus`-bodied and mandatory captures a non-empty run of the class for `n`. -/
theorem reMatch_capOK {n : String} {p : Char → Bool} {re : RE}
    (hshape : PlusGroups n p re) (hmand : MandGroup n re)
    {s : List Char} {caps : Caps} {m : Nat}
    (h : reMatch re s = some (caps, m)) :
    ∃ v, getCap caps n = some v ∧ v ≠ [] ∧ v.all p = true := by
  unfold reMatch at h
  cases hM : matchRE re s [] (fun s1 c1 => some (s1, c1)) with
  | none => rw [hM] at h; cases h
  | some res =>
      rw [hM] at h
      obtain ⟨s1, c1⟩ := res
      simp only [Option.some.injEq, Prod.mk.injEq] at h
      obtain ⟨hceq, -⟩ := h
      subst hceq
      have hpres : (getCap c1 n).isSome = true := by
        by_contra hno
        refine matchRE_mandatory n re hmand s [] _ (s1, c1) ?_ hM
        intro s2 c2 hc2 heq
        simp only [Option.some.injEq, Prod.mk.injEq] at heq
        obtain ⟨-, h2⟩ := heq
        subst h2
        exact hno hc2
      obtain ⟨v, hv⟩ := Option.isSome_iff_exists.mp hpres
      refine ⟨v, hv, ?_⟩
      by_contra hbad
      refine matchRE_capsOK n p re hshape s [] _ (s1, c1) ?_ ?_ hM
      · intro w hw
        simp [getCap] at hw
      · intro s2 c2 hc2 heq
        simp only [Option.some.injEq, Prod.mk.injEq] at heq
        obtain ⟨-, h2⟩ := heq
        subst h2
        exact hbad (hc2 v hv)

/-!
## Specification-side list rendering

The two definitions below follow the spec's words (§4.2 List, §8), to be
compared with `render_list`, which is translated from the source: item `i`
(0-indexed) of an ordered list with start `s` is rendered with `"(s+i). "`
appended to the current line prefix and `len(str(s+i)) + 2` spaces appended
to the continuation prefix; an unordered item gets the bullet plus a space
and a two-space continuation; outputs are concatenated in document order.
-/

/-- Follows the spec's words: ordered items, numbered from `num`, each
rendered from the stated prefix state. -/
def orderedItemsSpec (items : List (RState → Except String (String × RState)))
    (num : Nat) (st : RState) : Except String String :=
  match items with
  | [] => .ok ""
  | item :: rest => do
      let (out, _) ← item ⟨st.linePfx ++ (toString num ++ ". "),
                           st.secondPfx ++ spaces ((toString num).length + 2)⟩
      let outs ← orderedItemsSpec rest (num + 1) st
      .ok (out ++ outs)

/-- Follows the spec's words: unordered items, each rendered from the stated
prefix state. -/
def unorderedItemsSpec (items : List (RState → Except String (String × RState)))
    (bullet : String) (st : RState) : Except String String :=
  match items with
  | [] => .ok ""
  | item :: rest => do
      let (out, _) ← item ⟨st.linePfx ++ (bullet ++ " "), st.secondPfx ++ "  "⟩
      let outs ← unorderedItemsSpec rest bullet st
      .ok (out ++ outs)

theorem render_list_ordered_spec (items : List (RState → Except String (String × RState))) :
    ∀ (num : Nat) (st : RState),
    (render_list_ordered items num st).map (fun r => (joinAll r.1, r.2)) =
      (orderedItemsSpec items num st).map (fun o => (o, st)) := by
  induction items with
  | nil =>
      intro num st
      simp [render_list_ordered, orderedItemsSpec, joinAll]
  | cons item rest ih =>
      intro num st
      rw [render_list_ordered, orderedItemsSpec]
      unfold container
      cases hit : item ⟨st.linePfx ++ (toString num ++ ". "),
          st.secondPfx ++ spaces ((toString num).length + 2)⟩ with
      | error e => simp [hit]
      | ok outSt =>
          obtain ⟨out, st2⟩ := outSt
          have heta : (⟨st.linePfx, st.secondPfx⟩ : RState) = st := rfl
          simp only [hit, ok_bind, heta]
          have := ih (num + 1) st
          cases hr : render_list_ordered rest (num + 1) st with
          | error e =>
              rw [hr] at this
              cases hs : orderedItemsSpec rest (num + 1) st with
              | error e' =>
                  rw [hs] at this
                  simp at this
                  subst this
                  simp
              | ok o =>
                  rw [hs] at this
                  simp at this
          | ok outsSt =>
              rw [hr] at this
              obtain ⟨outs, st3⟩ := outsSt
              cases hs : orderedItemsSpec rest (num + 1) st with
              | error e' =>
                  rw [hs] at this
                  simp at this
              | ok o =>
                  rw [hs] at this
                  simp only [map_ok, Except.ok.injEq, Prod.mk.injEq] at this
                  obtain ⟨h1, h2⟩ := this
                  simp [joinAll, h1, h2]

theorem render_list_unordered_spec
    (items : List (RState → Except String (String × RState))) :
    ∀ (bullet : String) (st : RState),
    (render_list_unordered items bullet st).map (fun r => (joinAll r.1, r.2)) =
      (unorderedItemsSpec items bullet st).map (fun o => (o, st)) := by
  induction items with
  | nil =>
      intro bullet st
      simp [render_list_unordered, unorderedItemsSpec, joinAll]
  | cons item rest ih =>
      intro bullet st
      rw [render_list_unordered, unorderedItemsSpec]
      unfold container
      cases hit : item ⟨st.linePfx ++ (bullet ++ " "), st.secondPfx ++ "  "⟩ with
      | error e => simp [hit]
      | ok outSt =>
          obtain ⟨out, st2⟩ := outSt
          have heta : (⟨st.linePfx, st.secondPfx⟩ : RState) = st := rfl
          simp only [hit, ok_bind, heta]
          have := ih bullet st
          cases hr : render_list_unordered rest bullet st with
          | error e =>
              rw [hr] at this
              cases hs : unorderedItemsSpec rest bullet st with
              | error e' =>
                  rw [hs] at this
                  simp at this
                  subst this
                  simp
              | ok o =>
                  rw [hs] at this
                  simp at this
          | ok outsSt =>
              rw [hr] at this
              obtain ⟨outs, st3⟩ := outsSt
              cases hs : unorderedItemsSpec rest bullet st with
              | error e' =>
                  rw [hs] at this
                  simp at this
              | ok o =>
                  rw [hs] at this
                  simp only [map_ok, Except.ok.injEq, Prod.mk.injEq] at this
                  obtain ⟨h1, h2⟩ := this
                  simp [joinAll, h1, h2]

theorem render_list_eq_orderedSpec
    (items : List (RState → Except String (String × RState)))
    (start : Nat) (bullet : String) (st : RState) :
    render_list true start bullet items st =
      (orderedItemsSpec items start st).map
        (fun o => (o, (⟨st.secondPfx, st.secondPfx⟩ : RState))) := by
  unfold render_list
  have key := render_list_ordered_spec items start st
  cases hr : render_list_ordered items start st with
  | error e =>
      rw [hr] at key
      cases hs : orderedItemsSpec items start st with
      | error e' =>
          rw [hs] at key
          simp at key
          subst key
          simp
      | ok o => rw [hs] at key; simp at key
  | ok outsSt =>
      rw [hr] at key
      obtain ⟨outs, st1⟩ := outsSt
      cases hs : orderedItemsSpec items start st with
      | error e' => rw [hs] at key; simp at key
      | ok o =>
          rw [hs] at key
          simp only [map_ok, Except.ok.injEq, Prod.mk.injEq] at key
          obtain ⟨h1, h2⟩ := key
          simp [h1, h2]

theorem render_list_eq_unorderedSpec
    (items : List (RState → Except String (String × RState)))
    (start : Nat) (bullet : String) (st : RState) :
    render_list false start bullet items st =
      (unorderedItemsSpec items bullet st).map
        (fun o => (o, (⟨st.secondPfx, st.secondPfx⟩ : RState))) := by
  unfold render_list
  have key := render_list_unordered_spec items bullet st
  cases hr : render_list_unordered items bullet st with
  | error e =>
      rw [hr] at key
      cases hs : unorderedItemsSpec items bullet st with
      | error e' =>
          rw [hs] at key
          simp at key
          subst key
          simp
      | ok o => rw [hs] at key; simp at key
  | ok outsSt =>
      rw [hr] at key
      obtain ⟨outs, st1⟩ := outsSt
      cases hs : unorderedItemsSpec items bullet st with
      | error e' => rw [hs] at key; simp at key
      | ok o =>
          rw [hs] at key
          simp only [map_ok, Except.ok.injEq, Prod.mk.injEq] at key
          obtain ⟨h1, h2⟩ := key
          simp [h1, h2]

/-!
## Shape facts about the concrete patterns
-/

theorem plusGroups_objectID_linkLong :
    PlusGroups "object_ID" Char.isDigit internalLinkLongFormPat := by
  simp [internalLinkLongFormPat, reSeq, OPT_LINK_TEXT, PlusGroups, reStr]

theorem mandGroup_objectID_linkLong :
    MandGroup "object_ID" internalLinkLongFormPat := by
  simp [internalLinkLongFormPat, reSeq, OPT_LINK_TEXT, MandGroup, reStr]

theorem plusGroups_objectID_linkShort :
    PlusGroups "object_ID" Char.isDigit internalLinkShortFormPat := by
  simp [internalLinkShortFormPat, reSeq, OPT_LINK_TEXT, PlusGroups, reStr]

theorem mandGroup_objectID_linkShort :
    MandGroup "object_ID" internalLinkShortFormPat := by
  simp [internalLinkShortFormPat, reSeq, OPT_LINK_TEXT, MandGroup, reStr]

theorem plusGroups_imageID_imageLong :
    PlusGroups "image_ID" Char.isDigit internalImageLongFormPat := by
  simp [internalImageLongFormPat, reSeq, optSizePat, PlusGroups, reStr]

theorem mandGroup_imageID_imageLong :
    MandGroup "image_ID" internalImageLongFormPat := by
  simp [internalImageLongFormPat, reSeq, optSizePat, MandGroup, reStr]

theorem plusGroups_imageID_imageShort :
    PlusGroups "image_ID" dotP internalImageShortFormPat := by
  simp [internalImageShortFormPat, reSeq, optSizePat, PlusGroups, reStr]

theorem mandGroup_imageID_imageShort :
    MandGroup "image_ID" internalImageShortFormPat := by
  simp [internalImageShortFormPat, reSeq, optSizePat, MandGroup, reStr]

/-!
## String-assembly helpers
-/

theorem str_append_assoc (a b c : String) : (a ++ b) ++ c = a ++ (b ++ c) := by
  apply String.ext
  simp [String.data_append]

theorem urlTag_eq (x : String) :
    ("[" ++ "url" ++ paramStr (some x) ++ "]") = "[url=" ++ x ++ "]" := by
  show "[" ++ "url" ++ ("=" ++ x) ++ "]" = _
  rw [show ("[" : String) ++ "url" = "[url" from by decide]
  rw [← str_append_assoc "[url" "=" x]
  rw [show ("[url" : String) ++ "=" = "[url=" from by decide]

/-!
## The claims
-/

/-- C1: on a long-form internal link whose URL contains several
`/segment/digits` pairs, the recognizer selects the *last* `/type/id` pair
and ignores the trailing fragment; in particular
`[nice play](https://boardgamegeek.com/thread/555/article/777#777)` renders
to exactly `[article=777]nice play[/article]`, and on
`(https://boardgamegeek.com/a/11/b/22#33)` the long-form matcher captures
`link_type = "b"`, `object_ID = "22"` (the last pair, fragment dropped). -/
theorem C1_last_type_id_pair :
    renderInlineText "[nice play](https://boardgamegeek.com/thread/555/article/777#777)" =
      .ok "[article=777]nice play[/article]" ∧
    (reMatch internalLinkLongFormPat
        "(https://boardgamegeek.com/a/11/b/22#33)".toList).map
      (fun r => (getCap r.1 "link_type", getCap r.1 "object_ID", r.2)) =
      some (some ['b'], some ['2', '2'], 40) := by
  constructor
  · decide
  · decide

/-- C2: on `!(https://boardgamegeek.com/image/123 small)` the priority-7
internal-image matcher wins over the generic external-image matcher, which
also matches there: the output is exactly `[imageid=123 small]`, not the
`[img]…[/img]` form the external-image renderer would have produced. -/
theorem C2_image_priority :
    renderInlineText "!(https://boardgamegeek.com/image/123 small)" =
      .ok "[imageid=123 small]" ∧
    (reMatch externalImagePat
        "!(https://boardgamegeek.com/image/123 small)".toList).isSome = true ∧
    render_external_image (some "https://boardgamegeek.com/image/123 small".toList) =
      .ok "[img]https://boardgamegeek.com/image/123 small[/img]" := by
  refine ⟨by decide, by decide, by decide⟩

/-- C3 (counterexample): at heading level 3 the conversion aborts, but the
error is the bare dictionary-lookup failure `KeyError: 3`; its message does
not contain the phrase "unsupported heading level". -/
theorem C3_counterexample :
    render_heading 3 (.ok "Title") ⟨"", ""⟩ = .error "KeyError: 3" ∧
    ¬ ("unsupported heading level".toList <:+: "KeyError: 3".toList) := by
  constructor
  · decide
  · decide

/-- C3 (amended): for levels 1 and 2 (and brace-free rendered children, see
the `BGG_wrap` format bug), the output is exactly the current prefix, the
size-tag construct with parameter 24 resp. 18 wrapping the children, and a
newline, with the line prefix reset; for any other level the conversion
aborts before producing any output, with the uncaught `KeyError` naming the
level rather than an "unsupported heading level" message. -/
theorem C3_heading_levels :
    (∀ (st : RState) (s : String), braceFree s = true →
        render_heading 1 (.ok s) st =
          .ok (st.linePfx ++ ("[size=24]" ++ s ++ "[/size]") ++ "\n",
            ⟨st.secondPfx, st.secondPfx⟩)) ∧
    (∀ (st : RState) (s : String), braceFree s = true →
        render_heading 2 (.ok s) st =
          .ok (st.linePfx ++ ("[size=18]" ++ s ++ "[/size]") ++ "\n",
            ⟨st.secondPfx, st.secondPfx⟩)) ∧
    (∀ (level : Nat) (ch : Except String String) (st : RState),
        level ≠ 1 → level ≠ 2 →
        render_heading level ch st = .error ("KeyError: " ++ toString level)) := by
  refine ⟨?_, ?_, ?_⟩
  · intro st s hs
    show (do
        let w ← BGG_wrap "size" s (some (toString 24))
        Except.ok (st.linePfx ++ w ++ "\n",
          (⟨st.secondPfx, st.secondPfx⟩ : RState)) : Except String (String × RState)) = _
    rw [BGG_wrap_ok "size" s (some (toString 24)) (by decide) hs, ok_bind]
    rw [show ("[" : String) ++ "size" ++ paramStr (some (toString 24)) ++ "]" = "[size=24]"
      from by decide]
    rw [show ("[/" : String) ++ "size" ++ "]" = "[/size]" from by decide]
  · intro st s hs
    show (do
        let w ← BGG_wrap "size" s (some (toString 18))
        Except.ok (st.linePfx ++ w ++ "\n",
          (⟨st.secondPfx, st.secondPfx⟩ : RState)) : Except String (String × RState)) = _
    rw [BGG_wrap_ok "size" s (some (toString 18)) (by decide) hs, ok_bind]
    rw [show ("[" : String) ++ "size" ++ paramStr (some (toString 18)) ++ "]" = "[size=18]"
      from by decide]
    rw [show ("[/" : String) ++ "size" ++ "]" = "[/size]" from by decide]
  · intro level ch st h1 h2
    rw [render_heading]
    simp [headingSizes, h1, h2]

/-- Closed instance of `C3_heading_levels`. -/
theorem C3_heading_levels_witness :
    render_heading 1 (.ok "Title") ⟨"", "> "⟩ =
      .ok ("" ++ ("[size=24]" ++ "Title" ++ "[/size]") ++ "\n", ⟨"> ", "> "⟩) ∧
    render_heading 5 (.ok "Title") ⟨"", ""⟩ = .error ("KeyError: " ++ toString 5) :=
  ⟨C3_heading_levels.1 ⟨"", "> "⟩ "Title" (by decide),
   C3_heading_levels.2.2 5 (.ok "Title") ⟨"", ""⟩ (by decide) (by decide)⟩

/-- C4 (counterexample): the short-form image matcher accepts
`!(imageid=a)` and produces a node whose `image_ID` is the non-numeric
string `a` — its `image_ID` group is `.+?`, not a digit group. -/
theorem C4_counterexample :
    (reMatch internalImageShortFormPat "!(imageid=a)".toList).map
        (fun r => getCap r.1 "image_ID") = some (some ['a']) ∧
    ['a'].all Char.isDigit = false := by
  constructor
  · decide
  · decide

/-- C4 (amended): for every input on which a matcher succeeds, the captured
`object_ID` (both link forms) and the long-form `image_ID` are present,
non-empty and digits-only; the short-form `image_ID` is present and
non-empty, but its pattern does not restrict it to digits. -/
theorem C4_id_group_invariants :
    (∀ (s : List Char) (caps : Caps) (m : Nat),
        reMatch internalLinkLongFormPat s = some (caps, m) →
        ∃ v, getCap caps "object_ID" = some v ∧ v ≠ [] ∧ v.all Char.isDigit = true) ∧
    (∀ (s : List Char) (caps : Caps) (m : Nat),
        reMatch internalLinkShortFormPat s = some (caps, m) →
        ∃ v, getCap caps "object_ID" = some v ∧ v ≠ [] ∧ v.all Char.isDigit = true) ∧
    (∀ (s : List Char) (caps : Caps) (m : Nat),
        reMatch internalImageLongFormPat s = some (caps, m) →
        ∃ v, getCap caps "image_ID" = some v ∧ v ≠ [] ∧ v.all Char.isDigit = true) ∧
    (∀ (s : List Char) (caps : Caps) (m : Nat),
        reMatch internalImageShortFormPat s = some (caps, m) →
        ∃ v, getCap caps "image_ID" = some v ∧ v ≠ []) := by
  refine ⟨?_, ?_, ?_, ?_⟩
  · intro s caps m h
    exact reMatch_capOK plusGroups_objectID_linkLong mandGroup_objectID_linkLong h
  · intro s caps m h
    exact reMatch_capOK plusGroups_objectID_linkShort mandGroup_objectID_linkShort h
  · intro s caps m h
    exact reMatch_capOK plusGroups_imageID_imageLong mandGroup_imageID_imageLong h
  · intro s caps m h
    obtain ⟨v, h1, h2, -⟩ :=
      reMatch_capOK plusGroups_imageID_imageShort mandGroup_imageID_imageShort h
    exact ⟨v, h1, h2⟩

/-- Closed instances of `C4_id_group_invariants` on the four matchers. -/
theorem C4_id_group_invariants_witness :
    (∃ v, getCap [("link_type", ['b']), ("object_ID", ['2', '2'])] "object_ID" = some v ∧
        v ≠ [] ∧ v.all Char.isDigit = true) ∧
    (∃ v, getCap [("link_type", ['t', 'h', 'i', 'n', 'g']), ("object_ID", ['1'])]
        "object_ID" = some v ∧ v ≠ [] ∧ v.all Char.isDigit = true) ∧
    (∃ v, getCap [("image_ID", ['1', '2', '3']), ("size", ['s', 'm', 'a', 'l', 'l'])]
        "image_ID" = some v ∧ v ≠ [] ∧ v.all Char.isDigit = true) ∧
    (∃ v, getCap [("image_ID", ['2', '3', '5', '5', '8', '2', '3']),
        ("size", ['s', 'm', 'a', 'l', 'l'])] "image_ID" = some v ∧ v ≠ []) :=
  ⟨C4_id_group_invariants.1 "(https://boardgamegeek.com/a/11/b/22#33)".toList _ 40 (by decide),
   C4_id_group_invariants.2.1 "(thing=1)".toList _ 9 (by decide),
   C4_id_group_invariants.2.2.1 "!(https://boardgamegeek.com/image/123 small)".toList _ 44
     (by decide),
   C4_id_group_invariants.2.2.2 "!(imageid=2355823 small)".toList _ 24 (by decide)⟩

/-- C5: ordered lists render item `i` (0-indexed, numbered from the start
number `s`) with `"(s+i). "` appended to the line prefix and a continuation
prefix of `len(str(s+i)) + 2` spaces, unordered lists use the bullet plus a
space and a two-space continuation, and items are rendered in document
order — `render_list` agrees with the spec-side definitions built from
exactly those words. -/
theorem C5_list_prefixes :
    (∀ (items : List (RState → Except String (String × RState)))
        (start : Nat) (bullet : String) (st : RState),
        render_list true start bullet items st =
          (orderedItemsSpec items start st).map
            (fun o => (o, (⟨st.secondPfx, st.secondPfx⟩ : RState)))) ∧
    (∀ (items : List (RState → Except String (String × RState)))
        (start : Nat) (bullet : String) (st : RState),
        render_list false start bullet items st =
          (unorderedItemsSpec items bullet st).map
            (fun o => (o, (⟨st.secondPfx, st.secondPfx⟩ : RState)))) :=
  ⟨fun items start bullet st => render_list_eq_orderedSpec items start bullet st,
   fun items start bullet st => render_list_eq_unorderedSpec items start bullet st⟩

/-- C6: a code span whose text begins or ends with a backtick is wrapped in
double-backtick-plus-space delimiters, any other code span in the code-tag
construct; in particular the spec's example (backtick-initial text). -/
theorem C6_code_span :
    (∀ text : String,
        (text.toList.head? = some btick ∨ text.toList.getLast? = some btick) →
        render_code_span text = "`` " ++ text ++ " ``") ∧
    (∀ text : String,
        ¬ (text.toList.head? = some btick ∨ text.toList.getLast? = some btick) →
        render_code_span text = "[c]" ++ text ++ "[/c]") ∧
    render_code_span "`a" = "`` `a ``" := by
  refine ⟨?_, ?_, by decide⟩
  · intro text h
    rw [render_code_span, if_pos h]
  · intro text h
    rw [render_code_span, if_neg h]

/-- Closed instances of `C6_code_span`. -/
theorem C6_code_span_witness :
    render_code_span "`a" = "`` " ++ "`a" ++ " ``" ∧
    render_code_span "ab" = "[c]" ++ "ab" ++ "[/c]" :=
  ⟨C6_code_span.1 "`a" (by decide), C6_code_span.2.1 "ab" (by decide)⟩

/-- C7: `BGG_wrap` does *not* embed arbitrary contents verbatim, contrary to
its docstring: because the f-string result is passed through `str.format`,
contents containing `\x7b\x7d` make the call fail with an `IndexError`, and
doubled braces are silently collapsed; brace-free contents produce the
documented `[code]contents[/code]` form. -/
theorem C7_wrap_format_bug :
    BGG_wrap "q" ("hello " ++ String.mk [lbrace, rbrace]) none =
      .error "IndexError: Replacement index 1 out of range for positional args tuple" ∧
    BGG_wrap "q" ("a" ++ String.mk [lbrace, lbrace, rbrace, rbrace] ++ "b") none =
      .ok ("[q]a" ++ String.mk [lbrace, rbrace] ++ "b[/q]") ∧
    BGG_wrap "q" "hello" none = .ok "[q]hello[/q]" := by
  refine ⟨by decide, by decide, by decide⟩

/-- C8: the external-image renderer embeds the captured URL verbatim in an
img tag, applying no escaping, while the generic link renderer wraps the
rendered children in a url tag parameterized by the *escaped* destination
(the collaborator-supplied escaping utility applied to it), and discards the
link title. -/
theorem C8_image_raw_link_escaped :
    (∀ (url : String), braceFree url = true →
        render_external_image (some url.toList) = .ok ("[img]" ++ url ++ "[/img]")) ∧
    (∀ (escape_url : String → String) (children dest : String) (title : Option String),
        braceFree children = true →
        render_link escape_url children dest title =
          .ok ("[url=" ++ escape_url dest ++ "]" ++ children ++ "[/url]")) ∧
    (∀ (escape_url : String → String) (children dest : String) (t1 t2 : Option String),
        render_link escape_url children dest t1 = render_link escape_url children dest t2) := by
  refine ⟨?_, ?_, ?_⟩
  · intro url hurl
    rw [render_external_image]
    rw [show pyStr (some url.toList) = url from rfl]
    rw [BGG_wrap_ok _ _ _ (by decide) hurl]
    rw [show ("[" : String) ++ "img" ++ paramStr none ++ "]" = "[img]" from by decide]
    rw [show ("[/" : String) ++ "img" ++ "]" = "[/img]" from by decide]
  · intro escape_url children dest title hch
    rw [render_link]
    rw [BGG_wrap_ok _ _ _ (by decide) hch]
    rw [urlTag_eq (escape_url dest)]
    rw [show ("[/" : String) ++ "url" ++ "]" = "[/url]" from by decide]
  · intro escape_url children dest t1 t2
    rfl

/-- Closed instances of `C8_image_raw_link_escaped`. -/
theorem C8_image_raw_link_escaped_witness :
    render_external_image (some "https://x.org/a b".toList) =
      .ok ("[img]" ++ "https://x.org/a b" ++ "[/img]") ∧
    render_link (fun s => s ++ "%5D") "hi" "d" (some "t") =
      .ok ("[url=" ++ (fun s => s ++ "%5D") "d" ++ "]" ++ "hi" ++ "[/url]") ∧
    render_link (fun s => s) "c" "d" none = render_link (fun s => s) "c" "d" (some "x") :=
  ⟨C8_image_raw_link_escaped.1 "https://x.org/a b" (by decide),
   C8_image_raw_link_escaped.2.1 (fun s => s ++ "%5D") "hi" "d" (some "t") (by decide),
   C8_image_raw_link_escaped.2.2 (fun s => s) "c" "d" none (some "x")⟩

/-- C9: the short-form renderers are the very same functions as the
long-form ones (the source binds the same function object), so long- and
short-form nodes with equal captured data render identically. -/
theorem C9_long_short_renderers_identical :
    render_internal_link_short_form = render_internal_link_long_form ∧
    render_internal_image_short_form = render_internal_image_long_form ∧
    render_you_tube_short_form = render_you_tube_long_form ∧
    (∀ (caps : Caps) (children : List Inl),
        renderInl (.linkShort caps children) = renderInl (.linkLong caps children)) ∧
    (∀ caps : Caps, renderInl (.imageShort caps) = renderInl (.imageLong caps)) ∧
    (∀ v : Option (List Char), renderInl (.ytShort v) = renderInl (.ytLong v)) := by
  refine ⟨rfl, rfl, rfl, ?_, ?_, ?_⟩
  · intro caps children
    simp [renderInl, render_internal_link_short_form]
  · intro caps
    simp [renderInl, render_internal_image_short_form]
  · intro v
    simp [renderInl, render_you_tube_short_form]

/-- C10 (counterexample): `(=123)` does *not* render to `[=123][/=123]`. -/
theorem C10_counterexample :
    renderInlineText "(=123)" ≠ .ok "[=123][/=123]" := by
  decide

/-- C10 (amended): the short-form link pattern puts no constraint on
`link_type` (`.*?`), so `(=123)` produces a node with `link_type = ""` and
renders to `[=123][/]` — the opening tag has an empty name and the closing
tag is the bare `[/]`, not `[/=123]`. -/
theorem C10_empty_link_type :
    (reMatch internalLinkShortFormPat "(=123)".toList).map
      (fun r => (getCap r.1 "link_text", getCap r.1 "link_type", getCap r.1 "object_ID", r.2)) =
      some (none, some [], some ['1', '2', '3'], 6) ∧
    renderInlineText "(=123)" = .ok "[=123][/]" := by
  constructor
  · decide
  · decide

end MdToBgg
